import Mathlib

/-!
Shallow embedding of the coi repository's development server
(`scripts/dev_server.py`) and of the manifest parser shared by its test
tooling (`tests/runner/web_base.py`).

Python byte strings and text strings are modelled as `List Char`; Python
dicts keyed by file paths are modelled as association lists; the
filesystem, `translate_path` and `os.path.isfile` are abstracted as
function parameters.  Modification timestamps (`st_mtime`, a float in
Python) are abstracted as integers: no claim depends on timestamp
arithmetic, only on (in)equality.
-/

/-- Coerce a Lean string literal to the `List Char` representation used to
model Python strings. -/
def str (s : String) : List Char := s.toList

/-- Model of Python `str.strip()`: remove leading and trailing whitespace. -/
def pyStrip (s : List Char) : List Char :=
  ((s.dropWhile Char.isWhitespace).reverse.dropWhile Char.isWhitespace).reverse

/-- Model of Python `str.split(sep)` for a one-character separator `sep`
(the only form the sources use: they split on the pipe, the comma and the
newline).  Like Python, splitting the empty string yields `[[]]`. -/
def splitOnChar (sep : Char) : List Char → List (List Char)
  | [] => [[]]
  | c :: rest =>
    let r := splitOnChar sep rest
    if c = sep then [] :: r
    else
      match r with
      | [] => [[c]]
      | h :: t => (c :: h) :: t

/-! ## Manifest parsing (`WebRunnerBase.parse_manifest`) -/

/-- Fields of one manifest line: strip the line, split on the pipe, strip
each field. -/
def manifest_fields (raw : List Char) : List (List Char) :=
  (splitOnChar '|' (pyStrip raw)).map pyStrip

/-- The optional name filter of `parse_manifest`: with no filter (or, by
Python truthiness, an empty filter string) every name passes; a filter
ending in `*` keeps the names starting with the filter minus its last
character; any other filter keeps exactly its own name. -/
def pass_filter (filter_name : Option (List Char)) (name : List Char) : Bool :=
  match filter_name with
  | some f =>
    if f ≠ [] then
      if (str "*").isSuffixOf f then f.dropLast.isPrefixOf name
      else decide (name = f)
    else true
  | none => true

/-- Embedding of the per-line body of `WebRunnerBase.parse_manifest`
(`tests/runner/web_base.py` lines 62-83): strip the line, skip blanks and
`#` comments, split on the pipe and strip each field, require at least two
fields, keep the record when the hard-coded backend tag `web` is a member
of the comma-split third field (empty when absent), and apply the optional
name filter.  Returns the `(name, rel_path)` pair exactly when the line is
selected. -/
def parse_manifest_line (filter_name : Option (List Char)) (raw : List Char) :
    Option (List Char × List Char) :=
  if pyStrip raw = [] then none
  else if (str "#").isPrefixOf (pyStrip raw) then none
  else if (manifest_fields raw).length < 2 then none
  else if (splitOnChar ','
      (((manifest_fields raw).drop 2).headD [])).contains (str "web") then
    if pass_filter filter_name ((manifest_fields raw).headD []) then
      some ((manifest_fields raw).headD [], ((manifest_fields raw).drop 1).headD [])
    else none
  else none

/-- Embedding of the whole of `WebRunnerBase.parse_manifest`: the selected
`(name, rel_path)` pairs of the manifest lines, in order. -/
def parse_manifest (filter_name : Option (List Char)) (lines : List (List Char)) :
    List (List Char × List Char) :=
  lines.filterMap (parse_manifest_line filter_name)

/-! ## CLI entry (`main`) -/

/-- Outcome of the argument handling at the top of `main`
(`scripts/dev_server.py`): either the usage message with exit code 1, or
the server starts with the recorded configuration. -/
inductive MainStart
  | usageExit1
  | run (project_dir coi_bin : List Char) (hot_reload keep_cc cc_only : Bool)
deriving DecidableEq

/-- Embedding of the argument handling of `main`: if `len(sys.argv) < 3`
print the usage line and exit with code 1; otherwise take `sys.argv[1]` as
the project directory and `sys.argv[2]` as the build executable, and scan
the whole argument vector for the three flags. -/
def main_start (argv : List (List Char)) : MainStart :=
  if argv.length < 3 then .usageExit1
  else
    .run ((argv.drop 1).headD []) ((argv.drop 2).headD [])
      (!argv.contains (str "--no-watch"))
      (argv.contains (str "--keep-cc"))
      (argv.contains (str "--cc-only"))

/-- Spec-side notion used by claim C8: the positional (non-flag) arguments
of an invocation, that is the arguments after the program name that do not
start with `--`. -/
def positional_args (argv : List (List Char)) : List (List Char) :=
  (argv.drop 1).filter (fun a => !(str "--").isPrefixOf a)

/-! ## Build trigger (`watch_files` body) -/

/-- Result of a completed `subprocess.run` of the build command. -/
structure BuildResult where
  returncode : Int
  stdout : List Char
  stderr : List Char
deriving DecidableEq

/-- Outcome of one build attempt: the subprocess completed, or
`subprocess.run` raised (e.g. a timeout or spawn failure), carrying the
printed exception text. -/
inductive BuildOutcome
  | ok (r : BuildResult)
  | exc (msg : List Char)
deriving DecidableEq

/-- Embedding of the build-and-report part of one `watch_files` iteration
(`scripts/dev_server.py` lines 169-181): the returned pair is (whether
`notify_reload()` is called, the lines printed to the console).  On exit
code zero a success line is printed and the reload signal is pulsed; on a
non-zero exit code the combined `stdout + stderr` is split into lines and
every non-blank line is printed indented by two spaces, with no pulse; on
an exception its text is printed, with no pulse.  ANSI colour decorations
and the glyphs of the console markers are omitted from the model; Python
`splitlines` is modelled as splitting on the newline character. -/
def build_step (o : BuildOutcome) : Bool × List (List Char) :=
  match o with
  | .ok r =>
    if r.returncode = 0 then (true, [str "Rebuilt"])
    else
      (false, str "Build failed:" ::
        ((splitOnChar '\n' (r.stdout ++ r.stderr)).filter
          (fun l => !(pyStrip l).isEmpty)).map (fun l => str "  " ++ l))
  | .exc m => (false, [m])

/-! ## Watch set (`get_mtimes`) and change detection (`watch_files`) -/

/-- Abstract view of one filesystem entry as seen by `get_mtimes`: its
path, its modification time, whether it is a regular file, which of the
three watch roots (recursively globbed `src/`, `assets/`, `styles/`) it
lies under, and whether `stat` succeeds on it (`OSError` entries are
skipped). -/
structure FsEntry where
  path : List Char
  mtime : Int
  isFile : Bool
  inSrc : Bool
  inAssets : Bool
  inStyles : Bool
  statOk : Bool
deriving DecidableEq

/-- Selection predicate of `get_mtimes` (`scripts/dev_server.py` lines
114-147): `src/**/*.coi`, every regular file under `assets/`, and
`styles/**/*.css`; an entry whose `stat` raises is skipped. -/
def watched_path (e : FsEntry) : Bool :=
  ((e.inSrc && (str ".coi").isSuffixOf e.path) ||
    (e.inAssets && e.isFile) ||
    (e.inStyles && (str ".css").isSuffixOf e.path)) && e.statOk

/-- Embedding of `get_mtimes`: the snapshot mapping each watched path to
its modification time, as an association list. -/
def get_mtimes (fs : List FsEntry) : List (List Char × Int) :=
  (fs.filter watched_path).map (fun e => (e.path, e.mtime))

/-- Dictionary lookup on a snapshot (Python `p in last` / `last[p]`). -/
def dlookup (d : List (List Char × Int)) (k : List Char) : Option Int :=
  (d.find? (fun kv => kv.1 = k)).map (fun kv => kv.2)

/-- Python `p not in last or last[p] != t`: the entry is new in the
current snapshot or its timestamp changed. -/
def snapshot_changed (last : List (List Char × Int)) (pt : List Char × Int) : Bool :=
  match dlookup last pt.1 with
  | none => true
  | some t => t != pt.2

/-- Embedding of the change detection of one `watch_files` iteration: the
paths of snapshot entries that are new or have a different timestamp,
followed by the paths that disappeared. -/
def changed_paths (last curr : List (List Char × Int)) : List (List Char) :=
  (curr.filter (snapshot_changed last)).map (fun pt => pt.1)
    ++ (last.filter (fun pt => (dlookup curr pt.1).isNone)).map (fun pt => pt.1)

/-- The synchronous external build invocation: argument vector, timeout in
seconds, and working directory, as passed to `subprocess.run`. -/
structure BuildInvocation where
  argv : List (List Char)
  timeout_s : Nat
  cwd : List Char
deriving DecidableEq

/-- The command vector `[coi_bin, 'build']` extended by the pass-through
flags, as assembled in `watch_files`. -/
def build_cmd (coi_bin : List Char) (keep_cc cc_only : Bool) : List (List Char) :=
  [coi_bin, str "build"] ++ (if keep_cc then [str "--keep-cc"] else [])
    ++ (if cc_only then [str "--cc-only"] else [])

/-- Embedding of the decision part of one `watch_files` iteration: given
the previous and the freshly computed snapshot, the build command is
invoked (with a 30 second timeout, in the project directory) exactly when
the change list is non-empty. -/
def watch_tick (project_dir coi_bin : List Char) (keep_cc cc_only : Bool)
    (last curr : List (List Char × Int)) : Option BuildInvocation :=
  if changed_paths last curr ≠ [] then
    some ⟨build_cmd coi_bin keep_cc cc_only, 30, project_dir⟩
  else none

/-! ## Request routing (`DevHandler.do_GET`) -/

/-! ## Hot-reload script injection (`DevHandler.serve_html_with_reload`) -/

/-- Model of Python `bytes.replace(pat, rep)` restricted to a non-empty
pattern: scan left to right; at a match emit `rep`, skip the matched
characters (the `skip` counter consumes the remaining `pat.length - 1`
after the head) and continue after them (matches never overlap and
replacements are not rescanned); otherwise copy one character. -/
def replaceAux (pat rep : List Char) : Nat → List Char → List Char
  | _, [] => []
  | skip + 1, _ :: rest => replaceAux pat rep skip rest
  | 0, c :: rest =>
    if pat.isPrefixOf (c :: rest) then rep ++ replaceAux pat rep (pat.length - 1) rest
    else c :: replaceAux pat rep 0 rest

/-- Python `s.replace(pat, rep)`: replace every non-overlapping occurrence
of `pat` in `s`, leftmost first. -/
def pyReplace (s pat rep : List Char) : List Char := replaceAux pat rep 0 s

/-- Counting companion of `replaceAux`: how many (leftmost,
non-overlapping) occurrences of `pat` the same scan finds. -/
def countAux (pat : List Char) : Nat → List Char → Nat
  | _, [] => 0
  | skip + 1, _ :: rest => countAux pat skip rest
  | 0, c :: rest =>
    if pat.isPrefixOf (c :: rest) then countAux pat (pat.length - 1) rest + 1
    else countAux pat 0 rest

/-- Number of leftmost non-overlapping occurrences of `pat` in `s`. -/
def countOccur (pat s : List Char) : Nat := countAux pat 0 s

/-- No occurrence of `pat` starts at a position inside `pre` when `pre` is
followed by `rest`: at every suffix of `pre` (with `rest` appended) the
pattern is not a prefix. -/
def matchFreePrefix (pat : List Char) : List Char → List Char → Bool
  | [], _ => true
  | c :: pre, rest => (!pat.isPrefixOf (c :: (pre ++ rest))) && matchFreePrefix pat pre rest

/-- Response assembled by `serve_html_with_reload`: status, the two
headers it sets besides the length, the `Content-Length` value, and the
body bytes written. -/
structure HtmlResponse where
  status : Nat
  content_type : List Char
  content_length : Nat
  cache_control : List Char
  body : List Char
deriving DecidableEq

/-- The closing body tag `serve_html_with_reload` substitutes. -/
def body_close_tag : List Char := str "</body>"

/-- The inline hot-reload script literal of `serve_html_with_reload`
(`scripts/dev_server.py` line 70); the source literal ends with the
closing body tag, so that substituting it for the tag re-inserts the tag
after the script. -/
def reload_script : List Char :=
  str "<script>(function()\x7bvar k=\x27__coi_scroll\x27;var s=sessionStorage.getItem(k);if(s)\x7bsessionStorage.removeItem(k);var y=parseInt(s);window.addEventListener(\x27load\x27,function()\x7brequestAnimationFrame(function()\x7bwindow.scrollTo(0,y)\x7d)\x7d)\x7dvar e=new EventSource(\x27/__hot_reload\x27);e.onmessage=function(m)\x7bif(m.data===\x27reload\x27)\x7bsessionStorage.setItem(k,window.scrollY||document.documentElement.scrollTop);location.reload()\x7d\x7d;e.onerror=function()\x7bconsole.log(\x27[Coi] Reconnecting...\x27)\x7d\x7d)();</script></body>"

/-- The script literal without its trailing closing body tag, used to
state where the injection lands. -/
def reload_script_core : List Char :=
  str "<script>(function()\x7bvar k=\x27__coi_scroll\x27;var s=sessionStorage.getItem(k);if(s)\x7bsessionStorage.removeItem(k);var y=parseInt(s);window.addEventListener(\x27load\x27,function()\x7brequestAnimationFrame(function()\x7bwindow.scrollTo(0,y)\x7d)\x7d)\x7dvar e=new EventSource(\x27/__hot_reload\x27);e.onmessage=function(m)\x7bif(m.data===\x27reload\x27)\x7bsessionStorage.setItem(k,window.scrollY||document.documentElement.scrollTop);location.reload()\x7d\x7d;e.onerror=function()\x7bconsole.log(\x27[Coi] Reconnecting...\x27)\x7d\x7d)();</script>"

/-- Embedding of `DevHandler.serve_html_with_reload` on the successfully
read file content: substitute the script for the closing body tag, then
send status 200 and the headers, with `Content-Length` computed from the
rewritten body (headers are finalized after the rewrite). -/
def serve_html_with_reload (content : List Char) : HtmlResponse :=
  let c := pyReplace content body_close_tag reload_script
  ⟨200, str "text/html; charset=utf-8", c.length, str "no-cache", c⟩

/-- Outcome of `DevHandler.do_GET`: the SSE endpoint, a file served
verbatim by `SimpleHTTPRequestHandler.do_GET`, a file served through
`serve_html_with_reload`, or a 404 error. -/
inductive GetResult
  | sse
  | plain_file (fs_path : List Char)
  | html_with_reload (fs_path : List Char)
  | not_found
deriving DecidableEq

/-- HTTP status code of each `do_GET` outcome: existing files and the SSE
stream respond 200, the missing-fallback case responds 404. -/
def status_of : GetResult → Nat
  | .sse => 200
  | .plain_file _ => 200
  | .html_with_reload _ => 200
  | .not_found => 404

/-- Embedding of `DevHandler.do_GET` (`scripts/dev_server.py` lines
36-62).  `translate` abstracts `translate_path` (rooted in the served
`dist` directory) and `is_file` abstracts `os.path.isfile`.  The SSE
branch requires both the dedicated path and the hot-reload flag; an
existing file is served with injection exactly when it ends in `.html`
and hot reload is on; otherwise the handler rewrites the request to
`/index.html` and serves that (with injection whenever hot reload is on),
or sends a 404 when even the fallback is missing. -/
def do_GET (hot_reload : Bool) (translate : List Char → List Char)
    (is_file : List Char → Bool) (req_path : List Char) : GetResult :=
  if req_path = str "/__hot_reload" ∧ hot_reload = true then .sse
  else if is_file (translate req_path) then
    if (str ".html").isSuffixOf (translate req_path) ∧ hot_reload = true then
      .html_with_reload (translate req_path)
    else .plain_file (translate req_path)
  else if is_file (translate (str "/index.html")) then
    if hot_reload then .html_with_reload (translate (str "/index.html"))
    else .plain_file (translate (str "/index.html"))
  else .not_found

/-! ## SSE handlers, client registry and reload signal
(`DevHandler.handle_sse`, `notify_reload`, `sse_clients`)

The per-connection handler threads and the watcher thread are modelled as
an interleaved transition system whose atomic steps are the individual
lock-protected or single-primitive operations of the source: the
registry append and removal (performed under `sse_lock`), the CPython
`threading.Event` operations (`wait` first checks the flag under the
condition lock and returns at once when it is set; a woken waiter
re-checks the flag before returning true; a timeout returns false only
when the flag is down at the final re-check; `set`; `clear`), and each
stream write, which may raise when the client has disconnected. -/

/-- An event as seen by one connected client: the `data: reload` event or
the `: ping` keep-alive comment. -/
inductive SseEv
  | reload
  | ping
deriving DecidableEq

/-- Control point of one `handle_sse` thread.  `looping` is the top of the
`while True` loop, about to call `reload_event.wait`; `waiting` is blocked
inside `wait` with the flag down; `gotSignal` is `wait` having returned
true, about to write the reload event; `wroteReload` is between that write
and `reload_event.clear()`; `timedOut` is `wait` having returned false,
about to write the keep-alive; `exiting` is an exception having escaped
the loop, the `finally` block still pending; `closed` is after the
`finally` removal. -/
inductive Phase
  | looping
  | waiting
  | gotSignal
  | wroteReload
  | timedOut
  | exiting
  | closed
deriving DecidableEq

/-- One `handle_sse` thread: its control point and the events its client
stream has received so far. -/
structure Handler where
  phase : Phase
  sent : List SseEv
deriving DecidableEq

/-- Global state: all handler threads ever connected (a handler's index is
its stream's identity), the `sse_clients` registry of stream indices, and
the `reload_event` flag. -/
structure SseState where
  handlers : List Handler
  registry : List Nat
  flag : Bool
deriving DecidableEq

/-- Embedding of `notify_reload`: set the shared event flag. -/
def notify_reload (s : SseState) : SseState := { s with flag := true }

/-- Scheduler actions: one connection handshake (headers plus the locked
registry append), one internal step of handler `i`, or the watcher calling
`notify_reload` after a successful build. -/
inductive SseAction
  | connect
  | startWait (i : Nat)
  | wakeRecheck (i : Nat)
  | waitTimeout (i : Nat)
  | writeReloadOk (i : Nat)
  | writeReloadFail (i : Nat)
  | clearSignal (i : Nat)
  | writePingOk (i : Nat)
  | writePingFail (i : Nat)
  | finallyRemove (i : Nat)
  | pulse
deriving DecidableEq

/-- Guarded update of handler `i`: the step fires only when the handler
exists and is at the expected control point. -/
def updH (s : SseState) (i : Nat) (req : Phase) (f : Handler → Handler) : Option SseState :=
  match s.handlers[i]? with
  | some h => if h.phase = req then some { s with handlers := s.handlers.set i (f h) } else none
  | none => none

/-- One atomic step of the interleaved system, mirroring
`scripts/dev_server.py` lines 82-111.  `connect` appends the stream under
the lock and enters the loop; `startWait` calls `reload_event.wait`, which
returns true immediately when the flag is already set and otherwise
blocks; `wakeRecheck` is a blocked waiter observing the set flag at a
re-check; `waitTimeout` is the 30-second timeout expiring with the flag
down; the write steps send the reload event or the keep-alive and may fail
on a dead client; `clearSignal` is `reload_event.clear()` after a
successful reload write; `finallyRemove` is the locked conditional removal
in the `finally` block; `pulse` is the watcher's `notify_reload()`. -/
def sse_step (s : SseState) : SseAction → Option SseState
  | .connect =>
    some { s with handlers := s.handlers ++ [⟨.looping, []⟩],
                  registry := s.registry ++ [s.handlers.length] }
  | .startWait i =>
    updH s i .looping (fun h => { h with phase := if s.flag then .gotSignal else .waiting })
  | .wakeRecheck i =>
    if s.flag then updH s i .waiting (fun h => { h with phase := .gotSignal }) else none
  | .waitTimeout i =>
    if s.flag then none else updH s i .waiting (fun h => { h with phase := .timedOut })
  | .writeReloadOk i =>
    updH s i .gotSignal (fun h => ⟨.wroteReload, h.sent ++ [.reload]⟩)
  | .writeReloadFail i =>
    updH s i .gotSignal (fun h => { h with phase := .exiting })
  | .clearSignal i =>
    match updH s i .wroteReload (fun h => { h with phase := .looping }) with
    | some s' => some { s' with flag := false }
    | none => none
  | .writePingOk i =>
    updH s i .timedOut (fun h => ⟨.looping, h.sent ++ [.ping]⟩)
  | .writePingFail i =>
    updH s i .timedOut (fun h => { h with phase := .exiting })
  | .finallyRemove i =>
    match updH s i .exiting (fun h => { h with phase := .closed }) with
    | some s' => some { s' with registry := s'.registry.erase i }
    | none => none
  | .pulse => some (notify_reload s)

/-- The server's initial state: no handlers, empty registry, flag down. -/
def sse_init : SseState := ⟨[], [], false⟩

/-- Run a list of scheduler actions from a state; `none` when some action
is not enabled. -/
def sse_run (s : SseState) : List SseAction → Option SseState
  | [] => some s
  | a :: rest =>
    match sse_step s a with
    | some s' => sse_run s' rest
    | none => none

/-- States reachable from the initial state under some interleaving. -/
inductive SseReachable : SseState → Prop
  | init : SseReachable sse_init
  | step {s s' : SseState} {a : SseAction} :
      SseReachable s → sse_step s a = some s' → SseReachable s'

/-- Whether the handler at index `i` is still inside `handle_sse` (it has
been appended and its `finally` removal has not completed). -/
def activeAt (hs : List Handler) (i : Nat) : Bool :=
  ((hs[i]?).map (fun h => h.phase != .closed)).getD false

/-- The stream indices of the handlers currently inside `handle_sse`. -/
def active_ids (s : SseState) : List Nat :=
  (List.range s.handlers.length).filter (activeAt s.handlers)

/-! ## Helper lemmas about the replacement scan -/

/-- A list is a `isPrefixOf`-prefix of itself followed by anything. -/
theorem isPrefixOf_append_self : ∀ (l t : List Char), l.isPrefixOf (l ++ t) = true := by
  intro l t
  simp

/-- Consuming exactly the skip counter's worth of characters resumes the
scan unchanged. -/
theorem replaceAux_skip (pat rep : List Char) :
    ∀ (t s : List Char), replaceAux pat rep t.length (t ++ s) = replaceAux pat rep 0 s := by
  intro t
  induction t with
  | nil => intro s; rfl
  | cons c cs ih => intro s; simpa [replaceAux] using ih s

/-- The scan copies a match-free region verbatim. -/
theorem replaceAux_matchFree (pat rep : List Char) :
    ∀ (pre rest : List Char), matchFreePrefix pat pre rest = true →
      replaceAux pat rep 0 (pre ++ rest) = pre ++ replaceAux pat rep 0 rest := by
  intro pre
  induction pre with
  | nil => intro rest _; rfl
  | cons c pre ih =>
    intro rest h
    simp only [matchFreePrefix, Bool.and_eq_true, Bool.not_eq_true'] at h
    simp only [List.cons_append] at h ⊢
    simp only [replaceAux, h.1, Bool.false_eq_true, if_false]
    rw [ih rest h.2]

/-- At a match of a non-empty pattern the scan emits the replacement and
resumes after the matched characters. -/
theorem replaceAux_match (pat rep s : List Char) (h : pat ≠ []) :
    replaceAux pat rep 0 (pat ++ s) = rep ++ replaceAux pat rep 0 s := by
  match pat, h with
  | c :: pt, _ =>
    have hp : (c :: pt).isPrefixOf (c :: (pt ++ s)) = true := by
      have h2 := isPrefixOf_append_self (c :: pt) s
      rwa [List.cons_append] at h2
    rw [List.cons_append]
    simp only [replaceAux, List.append_eq]
    rw [if_pos hp]
    simp only [List.length_cons, Nat.add_sub_cancel]
    rw [replaceAux_skip]

/-- A region without any occurrence is left unchanged by the scan. -/
theorem countAux_zero_replace (pat rep : List Char) :
    ∀ s, countAux pat 0 s = 0 → replaceAux pat rep 0 s = s := by
  intro s
  induction s with
  | nil => intro _; rfl
  | cons c rest ih =>
    intro h
    cases hp : pat.isPrefixOf (c :: rest) with
    | true =>
      exfalso
      simp only [countAux] at h
      rw [if_pos hp] at h
      exact Nat.succ_ne_zero _ h
    | false =>
      have hneg : ¬ pat.isPrefixOf (c :: rest) = true :=
        fun hh => Bool.false_ne_true (hp ▸ hh)
      simp only [countAux] at h
      rw [if_neg hneg] at h
      simp only [replaceAux]
      rw [if_neg hneg, ih h]

set_option maxRecDepth 40000 in
/-- The script literal is the script body followed by the closing tag. -/
theorem reload_script_eq : reload_script = reload_script_core ++ body_close_tag := by
  decide

set_option maxRecDepth 40000 in
/-- Length of the script literal, used to separate the double-injection
result from the single-injection one. -/
theorem reload_script_length : reload_script.length = 487 := by
  decide

/-! ## Claim theorems -/

/-- C1 (amended): with hot reload enabled, serving an HTML document whose
bytes contain exactly one closing body tag — exhibited by the
decomposition, with no occurrence starting inside the prefix and none in
the suffix — yields a body equal to the file's bytes with the inline
reload script inserted exactly once, immediately before that closing body
tag, and the Content-Length header equals the length of the rewritten body
(headers finalized after the rewrite).  (As stated over all documents the
claim fails: the single text substitution rewrites every closing body tag,
not only the first — see the counterexample.) -/
theorem serve_html_with_reload_single_tag (content pre suf : List Char)
    (hdec : content = pre ++ body_close_tag ++ suf)
    (hpre : matchFreePrefix body_close_tag pre (body_close_tag ++ suf) = true)
    (hsuf : countOccur body_close_tag suf = 0) :
    (serve_html_with_reload content).body
      = pre ++ reload_script_core ++ body_close_tag ++ suf ∧
    (serve_html_with_reload content).content_length
      = (serve_html_with_reload content).body.length ∧
    (serve_html_with_reload content).status = 200 := by
  subst hdec
  have hne : body_close_tag ≠ [] := by decide
  refine ⟨?_, rfl, rfl⟩
  show pyReplace (pre ++ body_close_tag ++ suf) body_close_tag reload_script = _
  unfold pyReplace
  rw [List.append_assoc, replaceAux_matchFree _ _ _ _ hpre, replaceAux_match _ _ _ hne,
    countAux_zero_replace _ _ _ hsuf, reload_script_eq]
  simp [List.append_assoc]

/-- C1 witness: a concrete document with a single closing body tag is
rewritten with the script exactly once, directly before the tag, and the
Content-Length matches the rewritten body. -/
theorem serve_html_with_reload_single_tag_witness :
    (serve_html_with_reload (str "<html><body>x</body></html>")).body
      = str "<html><body>x" ++ reload_script_core ++ body_close_tag ++ str "</html>" ∧
    (serve_html_with_reload (str "<html><body>x</body></html>")).content_length
      = (serve_html_with_reload (str "<html><body>x</body></html>")).body.length ∧
    (serve_html_with_reload (str "<html><body>x</body></html>")).status = 200 :=
  serve_html_with_reload_single_tag (str "<html><body>x</body></html>")
    (str "<html><body>x") (str "</html>") (by decide) (by decide) (by decide)

/-- C1 counterexample: a document with two closing body tags has the
script substituted at both of them, so it is not inserted exactly once
before the first tag as the claim states: the rewritten body carries two
copies of the script (witnessed by the two occurrences of its
`EventSource` fragment). -/
theorem serve_html_with_reload_counterexample :
    (serve_html_with_reload (str "<body>A</body>B</body>")).body
      = str "<body>A" ++ reload_script ++ str "B" ++ reload_script ∧
    (serve_html_with_reload (str "<body>A</body>B</body>")).body
      ≠ str "<body>A" ++ reload_script ++ str "B</body>" := by
  have hb : (serve_html_with_reload (str "<body>A</body>B</body>")).body
      = str "<body>A" ++ (reload_script ++ (str "B" ++ reload_script)) := by
    show pyReplace _ _ _ = _
    have hc : str "<body>A</body>B</body>"
        = str "<body>A" ++ (body_close_tag ++ (str "B" ++ (body_close_tag ++ ([] : List Char)))) := by
      decide
    unfold pyReplace
    rw [hc, replaceAux_matchFree _ _ _ _ (by decide), replaceAux_match _ _ _ (by decide),
      replaceAux_matchFree _ _ _ _ (by decide), replaceAux_match _ _ _ (by decide)]
    simp [replaceAux]
  constructor
  · rw [hb]
    simp [List.append_assoc]
  · rw [hb]
    intro heq
    have hlen := congrArg List.length heq
    simp only [List.length_append] at hlen
    have h8 : (str "B</body>").length = 8 := by decide
    have h1 : (str "B").length = 1 := by decide
    rw [h8, h1, reload_script_length] at hlen
    omega

/-- C8 counterexample: an invocation carrying only flags after the program
name has zero positional arguments, yet the process does not exit with the
usage message: it proceeds, mistaking the first flag for the project
directory and the second for the build executable. -/
theorem main_start_counterexample :
    (positional_args [str "dev_server.py", str "--keep-cc", str "--cc-only"]).length = 0 ∧
    main_start [str "dev_server.py", str "--keep-cc", str "--cc-only"]
      = .run (str "--keep-cc") (str "--cc-only") true true true := by
  constructor
  · decide
  · decide

/-- C8 (amended): the usage-and-exit-1 path is taken exactly when fewer
than two command-line arguments of any kind follow the program name (the
code tests `len(sys.argv) < 3`, counting flags as well); with two or more,
the process proceeds taking `sys.argv[1]` as the project directory and
`sys.argv[2]` as the build executable, whether or not they are flags. -/
theorem main_start_spec (argv : List (List Char)) :
    (main_start argv = .usageExit1 ↔ argv.length < 3) ∧
    (∀ prog a b rest, argv = prog :: a :: b :: rest →
      main_start argv = .run a b (!argv.contains (str "--no-watch"))
        (argv.contains (str "--keep-cc")) (argv.contains (str "--cc-only"))) := by
  constructor
  · unfold main_start
    split
    · rename_i h
      simpa using h
    · rename_i h
      constructor
      · intro hco
        exact absurd hco (by simp)
      · intro hlt
        exact absurd hlt h
  · rintro prog a b rest rfl
    unfold main_start
    rw [if_neg (by intro hcon; simp only [List.length_cons] at hcon; omega)]
    rfl

/-- C3: in a watcher iteration that detected a change, the reload signal
is pulsed if and only if the build command ran to completion with exit
code zero; on a non-zero exit the signal is not pulsed and every non-blank
line of the combined stdout and stderr of the build is among the lines
printed to the console (indented as the code prints it). -/
theorem build_step_spec (o : BuildOutcome) :
    ((build_step o).1 = true ↔ ∃ r, o = .ok r ∧ r.returncode = 0) ∧
    (∀ r, o = .ok r → r.returncode ≠ 0 →
      (build_step o).1 = false ∧
      ∀ l ∈ splitOnChar '\n' (r.stdout ++ r.stderr),
        (pyStrip l).isEmpty = false → str "  " ++ l ∈ (build_step o).2) := by
  constructor
  · cases o with
    | ok r =>
      by_cases h : r.returncode = 0
      · simp [build_step, h]
      · simp [build_step, h]
    | exc m =>
      simp [build_step]
  · rintro r rfl hrc
    constructor
    · simp [build_step, hrc]
    · intro l hl hblank
      simp only [build_step, if_neg hrc]
      refine List.mem_cons_of_mem _ (List.mem_map.mpr ⟨l, List.mem_filter.mpr ⟨hl, ?_⟩, rfl⟩)
      simp [hblank]

/-- C3 witness: a failed build with output `boom` on stdout and `bad` on
stderr does not pulse the reload signal and prints the non-blank lines. -/
theorem build_step_spec_witness :
    ((build_step (.ok ⟨1, str "boom\n", str "bad"⟩)).1 = true ↔
      ∃ r, BuildOutcome.ok ⟨1, str "boom\n", str "bad"⟩ = .ok r ∧ r.returncode = 0) ∧
    (∀ r, BuildOutcome.ok ⟨1, str "boom\n", str "bad"⟩ = .ok r → r.returncode ≠ 0 →
      (build_step (.ok ⟨1, str "boom\n", str "bad"⟩)).1 = false ∧
      ∀ l ∈ splitOnChar '\n' (r.stdout ++ r.stderr),
        (pyStrip l).isEmpty = false →
          str "  " ++ l ∈ (build_step (.ok ⟨1, str "boom\n", str "bad"⟩)).2) :=
  build_step_spec (.ok ⟨1, str "boom\n", str "bad"⟩)

/-- C2: a GET for a path that is not the event-stream endpoint and does
not resolve to an existing file is answered with the root HTML document
and status 200 (injected or verbatim according to the hot-reload flag)
when `index.html` exists, and with a 404 otherwise. -/
theorem do_GET_spa_fallback (hr : Bool) (tr : List Char → List Char)
    (isf : List Char → Bool) (p : List Char)
    (hp : p ≠ str "/__hot_reload") (hmiss : isf (tr p) = false) :
    (isf (tr (str "/index.html")) = true →
      (do_GET hr tr isf p = .html_with_reload (tr (str "/index.html")) ∨
        do_GET hr tr isf p = .plain_file (tr (str "/index.html"))) ∧
      status_of (do_GET hr tr isf p) = 200) ∧
    (isf (tr (str "/index.html")) = false →
      do_GET hr tr isf p = .not_found ∧
      status_of (do_GET hr tr isf p) = 404) := by
  unfold do_GET
  rw [if_neg (by rintro ⟨h1, h2⟩; exact hp h1)]
  simp only [hmiss, Bool.false_eq_true, if_false]
  constructor
  · intro hidx
    rw [if_pos hidx]
    cases hr with
    | true => exact ⟨Or.inl rfl, rfl⟩
    | false => exact ⟨Or.inr rfl, rfl⟩
  · intro hidx
    rw [if_neg (by simp [hidx])]
    exact ⟨rfl, rfl⟩

/-- C2 witness: with hot reload on, an identity path translation and a
filesystem whose only file is `/index.html`, a GET for `/missing` serves
the root document with status 200. -/
theorem do_GET_spa_fallback_witness :
    ((do_GET true (fun q => q) (fun q => decide (q = str "/index.html")) (str "/missing")
        = .html_with_reload (str "/index.html") ∨
      do_GET true (fun q => q) (fun q => decide (q = str "/index.html")) (str "/missing")
        = .plain_file (str "/index.html")) ∧
     status_of (do_GET true (fun q => q) (fun q => decide (q = str "/index.html"))
        (str "/missing")) = 200) :=
  (do_GET_spa_fallback true (fun q => q) (fun q => decide (q = str "/index.html"))
    (str "/missing") (by decide) (by decide)).1 (by decide)

/-- With hot reload off, every request ends as a verbatim file, the
verbatim fallback document, or a 404. -/
theorem do_GET_hot_reload_off (tr : List Char → List Char) (isf : List Char → Bool)
    (p : List Char) :
    do_GET false tr isf p = .plain_file (tr p) ∨
    do_GET false tr isf p = .plain_file (tr (str "/index.html")) ∨
    do_GET false tr isf p = .not_found := by
  unfold do_GET
  rw [if_neg (by rintro ⟨h1, h2⟩; cases h2)]
  by_cases hf : isf (tr p) = true
  · rw [if_pos hf, if_neg (by rintro ⟨h1, h2⟩; cases h2)]
    exact Or.inl rfl
  · rw [if_neg hf]
    by_cases hi : isf (tr (str "/index.html")) = true
    · rw [if_pos hi, if_neg (by simp)]
      exact Or.inr (Or.inl rfl)
    · rw [if_neg hi]
      exact Or.inr (Or.inr rfl)

/-- C6: with hot reload disabled no request is answered by the SSE
endpoint or with an injected body (every served file is verbatim), and a
GET of `/__hot_reload` falls through to ordinary SPA handling: when that
path resolves to no file and the fallback document exists, it is served
verbatim. -/
theorem do_GET_no_watch (tr : List Char → List Char) (isf : List Char → Bool) :
    (∀ p, do_GET false tr isf p ≠ .sse ∧
      ∀ q, do_GET false tr isf p ≠ .html_with_reload q) ∧
    (isf (tr (str "/__hot_reload")) = false → isf (tr (str "/index.html")) = true →
      do_GET false tr isf (str "/__hot_reload") = .plain_file (tr (str "/index.html"))) := by
  constructor
  · intro p
    rcases do_GET_hot_reload_off tr isf p with d | d | d <;>
      rw [d] <;> exact ⟨by simp, fun q => by simp⟩
  · intro hsse hidx
    unfold do_GET
    rw [if_neg (by rintro ⟨h1, h2⟩; cases h2), if_neg (by simp [hsse]), if_pos hidx,
      if_neg (by simp)]

/-- Membership and the `BEq`-based `contains` agree on lists of character
lists. -/
theorem contains_iff_mem_chars (l : List (List Char)) (a : List Char) :
    l.contains a = true ↔ a ∈ l := by
  simp

/-- Characterization of the optional name filter: it accepts exactly when
either there is no filter, the filter is empty, the filter ends in `*` and
the filter minus that star is a prefix of the name, or the filter does not
end in `*` and equals the name. -/
theorem pass_filter_iff (fn : Option (List Char)) (name : List Char) :
    pass_filter fn name = true ↔
      ∀ f, fn = some f → f ≠ [] →
        ((str "*").isSuffixOf f = true ∧ f.dropLast.isPrefixOf name = true) ∨
        ((str "*").isSuffixOf f = false ∧ name = f) := by
  cases fn with
  | none =>
    simp [pass_filter]
  | some f =>
    by_cases hf : f = []
    · subst hf
      simp [pass_filter]
    · rw [pass_filter, if_pos hf]
      cases hstar : (str "*").isSuffixOf f with
      | true =>
        rw [if_pos rfl]
        constructor
        · intro hp g hg hgne
          injection hg with hg'
          subst hg'
          exact Or.inl ⟨hstar, hp⟩
        · intro hall
          rcases hall f rfl hf with ⟨-, hp⟩ | ⟨hfalse, -⟩
          · exact hp
          · rw [hstar] at hfalse
            cases hfalse
      | false =>
        rw [if_neg (fun hh => Bool.false_ne_true hh)]
        constructor
        · intro hp g hg hgne
          injection hg with hg'
          subst hg'
          exact Or.inr ⟨hstar, of_decide_eq_true hp⟩
        · intro hall
          rcases hall f rfl hf with ⟨htrue, -⟩ | ⟨-, heq⟩
          · rw [hstar] at htrue
            cases htrue
          · exact decide_eq_true heq

/-- C7: a manifest line yields the pair `(n, r)` for backend tag `web` if
and only if the stripped line is non-blank, is not a `#` comment, splits
into at least two pipe-delimited fields, the tag `web` appears in the
comma-split tag set of the third stripped field (empty when absent), the
optional name filter passes (exact match, or prefix match when the filter
ends in `*`), and `n` and `r` are the first two whitespace-stripped
fields. -/
theorem parse_manifest_line_selects (fn : Option (List Char)) (raw n r : List Char) :
    parse_manifest_line fn raw = some (n, r) ↔
      (pyStrip raw ≠ [] ∧
       ¬ (str "#").isPrefixOf (pyStrip raw) = true ∧
       2 ≤ (manifest_fields raw).length ∧
       n = (manifest_fields raw).headD [] ∧
       r = ((manifest_fields raw).drop 1).headD [] ∧
       str "web" ∈ splitOnChar ',' (((manifest_fields raw).drop 2).headD []) ∧
       (∀ f, fn = some f → f ≠ [] →
         ((str "*").isSuffixOf f = true ∧ f.dropLast.isPrefixOf n = true) ∨
         ((str "*").isSuffixOf f = false ∧ n = f))) := by
  by_cases h1 : pyStrip raw = []
  · simp [parse_manifest_line, h1]
  rw [parse_manifest_line, if_neg h1]
  by_cases h2 : (str "#").isPrefixOf (pyStrip raw) = true
  · rw [if_pos h2]
    constructor
    · intro h
      cases h
    · rintro ⟨-, hcon, -⟩
      exact absurd h2 hcon
  rw [if_neg h2]
  by_cases h3 : (manifest_fields raw).length < 2
  · rw [if_pos h3]
    constructor
    · intro h
      cases h
    · rintro ⟨-, -, hlen, -⟩
      exfalso
      omega
  rw [if_neg h3]
  by_cases hw : (splitOnChar ','
      (((manifest_fields raw).drop 2).headD [])).contains (str "web") = true
  · rw [if_pos hw]
    by_cases hpf : pass_filter fn ((manifest_fields raw).headD []) = true
    · rw [if_pos hpf]
      constructor
      · intro h
        rw [Option.some.injEq, Prod.mk.injEq] at h
        obtain ⟨rfl, rfl⟩ := h
        exact ⟨h1, h2, by omega, rfl, rfl, (contains_iff_mem_chars _ _).mp hw,
          (pass_filter_iff fn _).mp hpf⟩
      · rintro ⟨-, -, -, rfl, rfl, -, -⟩
        rfl
    · rw [if_neg hpf]
      constructor
      · intro h
        cases h
      · rintro ⟨-, -, -, rfl, -, -, hfil⟩
        exact absurd ((pass_filter_iff fn _).mpr hfil) hpf
  · rw [if_neg hw]
    constructor
    · intro h
      cases h
    · rintro ⟨-, -, -, -, -, hmem, -⟩
      exact absurd ((contains_iff_mem_chars _ _).mpr hmem) hw

/-- A filter result is non-empty exactly when some member satisfies the
predicate. -/
theorem filter_ne_nil_iff {α : Type} (l : List α) (f : α → Bool) :
    l.filter f ≠ [] ↔ ∃ x, x ∈ l ∧ f x = true := by
  constructor
  · intro hne
    cases hl : l.filter f with
    | nil => exact absurd hl hne
    | cons x xs =>
      have hx : x ∈ l.filter f := by
        rw [hl]
        exact List.mem_cons_self x xs
      rcases List.mem_filter.mp hx with ⟨hxl, hxf⟩
      exact ⟨x, hxl, hxf⟩
  · rintro ⟨x, hmem, hf⟩ hnil
    have hx : x ∈ l.filter f := List.mem_filter.mpr ⟨hmem, hf⟩
    rw [hnil] at hx
    cases hx

/-- The new-or-modified test of the watcher, as a proposition on the
previous snapshot. -/
theorem snapshot_changed_iff (last : List (List Char × Int)) (pt : List Char × Int) :
    snapshot_changed last pt = true ↔ dlookup last pt.1 ≠ some pt.2 := by
  cases h : dlookup last pt.1 with
  | none => simp [snapshot_changed, h]
  | some t0 => simp [snapshot_changed, h, bne_iff_ne]

/-- C5: the snapshot taken on a watcher tick maps a path to a timestamp
exactly when some filesystem entry at that path lies in one of the three
watch roots (`src/**/*.coi`, regular files under `assets/`,
`styles/**/*.css`) with a working `stat`; and the external build command
is invoked — synchronously, as `<coi_bin> build` plus the pass-through
flags, with a 30-second timeout and the project directory as working
directory — exactly when some path was created or modified (present now
with no matching previous entry) or deleted (present before, absent
now). -/
theorem get_mtimes_watch_tick_spec :
    (∀ (fs : List FsEntry) (p : List Char) (t : Int),
      (p, t) ∈ get_mtimes fs ↔
        ∃ e, e ∈ fs ∧ e.path = p ∧ e.mtime = t ∧ e.statOk = true ∧
          ((e.inSrc = true ∧ (str ".coi").isSuffixOf p = true) ∨
           (e.inAssets = true ∧ e.isFile = true) ∨
           (e.inStyles = true ∧ (str ".css").isSuffixOf p = true))) ∧
    (∀ (pd cb : List Char) (kc co : Bool) (last curr : List (List Char × Int)),
      ((watch_tick pd cb kc co last curr).isSome = true ↔
        (∃ pt, pt ∈ curr ∧ dlookup last pt.1 ≠ some pt.2) ∨
        (∃ pt, pt ∈ last ∧ dlookup curr pt.1 = none)) ∧
      (watch_tick pd cb kc co last curr = none ∨
        watch_tick pd cb kc co last curr =
          some ⟨[cb, str "build"] ++ (if kc then [str "--keep-cc"] else [])
            ++ (if co then [str "--cc-only"] else []), 30, pd⟩)) := by
  constructor
  · intro fs p t
    constructor
    · intro hmem
      rw [get_mtimes] at hmem
      rcases List.mem_map.mp hmem with ⟨e, hef, heq⟩
      rcases List.mem_filter.mp hef with ⟨hin, hwp⟩
      rw [Prod.mk.injEq] at heq
      obtain ⟨rfl, rfl⟩ := heq
      simp only [watched_path, Bool.and_eq_true, Bool.or_eq_true] at hwp
      exact ⟨e, hin, rfl, rfl, hwp.2, by tauto⟩
    · rintro ⟨e, hin, rfl, rfl, hstat, hsel⟩
      rw [get_mtimes]
      refine List.mem_map.mpr ⟨e, List.mem_filter.mpr ⟨hin, ?_⟩, rfl⟩
      simp only [watched_path, Bool.and_eq_true, Bool.or_eq_true]
      exact ⟨by tauto, hstat⟩
  · intro pd cb kc co last curr
    have key : changed_paths last curr ≠ [] ↔
        (∃ pt, pt ∈ curr ∧ dlookup last pt.1 ≠ some pt.2) ∨
        (∃ pt, pt ∈ last ∧ dlookup curr pt.1 = none) := by
      have mapnil : ∀ (l : List (List Char × Int)) (f : List Char × Int → Bool),
          (l.filter f).map (fun pt => pt.1) ≠ [] ↔ l.filter f ≠ [] := by
        intro l f
        rw [Ne, Ne, List.map_eq_nil_iff]
      rw [changed_paths]
      rw [Ne, List.append_eq_nil, not_and_or, ← Ne, ← Ne, mapnil, mapnil]
      constructor
      · rintro (h | h)
        · rcases (filter_ne_nil_iff _ _).mp h with ⟨pt, hmem, hf⟩
          exact Or.inl ⟨pt, hmem, (snapshot_changed_iff _ _).mp hf⟩
        · rcases (filter_ne_nil_iff _ _).mp h with ⟨pt, hmem, hf⟩
          exact Or.inr ⟨pt, hmem, Option.isNone_iff_eq_none.mp hf⟩
      · rintro (⟨pt, hmem, hf⟩ | ⟨pt, hmem, hf⟩)
        · exact Or.inl ((filter_ne_nil_iff _ _).mpr
            ⟨pt, hmem, (snapshot_changed_iff _ _).mpr hf⟩)
        · exact Or.inr ((filter_ne_nil_iff _ _).mpr
            ⟨pt, hmem, Option.isNone_iff_eq_none.mpr hf⟩)
    constructor
    · rw [watch_tick]
      by_cases hch : changed_paths last curr ≠ []
      · rw [if_pos hch]
        simpa using key.mp hch
      · rw [if_neg hch]
        simp only [Option.isSome_none, Bool.false_eq_true, false_iff]
        intro hcon
        exact hch (key.mpr hcon)
    · rw [watch_tick, build_cmd]
      split
      · exact Or.inr rfl
      · exact Or.inl rfl

/-- Success characterization of the guarded handler update. -/
theorem updH_eq_some (s : SseState) (i : Nat) (req : Phase) (f : Handler → Handler)
    (s' : SseState) :
    updH s i req f = some s' ↔
      ∃ h, s.handlers[i]? = some h ∧ h.phase = req ∧
        s' = { s with handlers := s.handlers.set i (f h) } := by
  rw [updH]
  cases hh : s.handlers[i]? with
  | none =>
    constructor
    · intro hc
      cases hc
    · rintro ⟨h2, hh2, -, -⟩
      cases hh2
  | some h =>
    dsimp only
    by_cases hp : h.phase = req
    · rw [if_pos hp]
      constructor
      · intro he
        exact ⟨h, rfl, hp, (Option.some.inj he).symm⟩
      · rintro ⟨h2, hh2, hp2, rfl⟩
        injection hh2 with he
        subst he
        rfl
    · rw [if_neg hp]
      constructor
      · intro hc
        cases hc
      · rintro ⟨h2, hh2, hp2, -⟩
        injection hh2 with he
        subst he
        exact absurd hp2 hp

/-- C10: the reload signal is never discarded while unconsumed.  A step
that takes the flag from set to cleared can only be the `clear()` of a
handler that has already written the reload event to its client; a handler
that begins its wait while the flag is set observes it immediately
(`wait` returns true at once, moving it to the about-to-write-reload
control point); and the 30-second timeout can fire only while the flag is
down — so a pulse with nobody waiting stays set until the first handler
that enters `wait` consumes it, and the signal is cleared only by a
consumer after the write, never by a timeout. -/
theorem sse_signal_persistence (s : SseState) (a : SseAction) (s' : SseState)
    (hstep : sse_step s a = some s') :
    (s.flag = true → s'.flag = false →
      ∃ i h, a = .clearSignal i ∧ s.handlers[i]? = some h ∧ h.phase = .wroteReload) ∧
    (∀ i h, a = .startWait i → s.flag = true → s.handlers[i]? = some h →
      s'.handlers[i]? = some ⟨.gotSignal, h.sent⟩) ∧
    (∀ i, a = .waitTimeout i → s.flag = false) := by
  cases a with
  | connect =>
    have he := Option.some.inj hstep
    subst he
    refine ⟨?_, ?_, ?_⟩
    · intro hf hf'
      have hc : s.flag = false := hf'
      rw [hf] at hc
      cases hc
    · intro j hj heq
      cases heq
    · intro j heq
      cases heq
  | startWait i =>
    rcases (updH_eq_some s i .looping _ s').mp hstep with ⟨h0, hh0, hph0, rfl⟩
    refine ⟨?_, ?_, ?_⟩
    · intro hf hf'
      have hc : s.flag = false := hf'
      rw [hf] at hc
      cases hc
    · intro j hj heq hf hhj
      injection heq with hij
      subst hij
      have hlt := (List.getElem?_eq_some.mp hh0).1
      have hj0 : hj = h0 := by
        rw [hh0] at hhj
        exact (Option.some.inj hhj).symm
      subst hj0
      show (s.handlers.set i _)[i]? = _
      rw [List.getElem?_set_self hlt, hf]
      rfl
    · intro j heq
      cases heq
  | wakeRecheck i =>
    simp only [sse_step] at hstep
    by_cases hf : s.flag = true
    · rw [if_pos hf] at hstep
      rcases (updH_eq_some s i .waiting _ s').mp hstep with ⟨h0, hh0, hph0, rfl⟩
      refine ⟨?_, ?_, ?_⟩
      · intro hfl hf'
        have hc : s.flag = false := hf'
        rw [hfl] at hc
        cases hc
      · intro j hj heq
        cases heq
      · intro j heq
        cases heq
    · rw [if_neg hf] at hstep
      cases hstep
  | waitTimeout i =>
    simp only [sse_step] at hstep
    by_cases hf : s.flag = true
    · rw [if_pos hf] at hstep
      cases hstep
    · rw [if_neg hf] at hstep
      rcases (updH_eq_some s i .waiting _ s').mp hstep with ⟨h0, hh0, hph0, rfl⟩
      refine ⟨?_, ?_, ?_⟩
      · intro hfl hf'
        exact absurd hfl hf
      · intro j hj heq
        cases heq
      · intro j heq
        cases hsf : s.flag with
        | false => rfl
        | true => exact absurd hsf hf
  | writeReloadOk i =>
    rcases (updH_eq_some s i .gotSignal _ s').mp hstep with ⟨h0, hh0, hph0, rfl⟩
    refine ⟨?_, ?_, ?_⟩
    · intro hf hf'
      have hc : s.flag = false := hf'
      rw [hf] at hc
      cases hc
    · intro j hj heq
      cases heq
    · intro j heq
      cases heq
  | writeReloadFail i =>
    rcases (updH_eq_some s i .gotSignal _ s').mp hstep with ⟨h0, hh0, hph0, rfl⟩
    refine ⟨?_, ?_, ?_⟩
    · intro hf hf'
      have hc : s.flag = false := hf'
      rw [hf] at hc
      cases hc
    · intro j hj heq
      cases heq
    · intro j heq
      cases heq
  | clearSignal i =>
    simp only [sse_step] at hstep
    cases hu : updH s i .wroteReload (fun h => { h with phase := .looping }) with
    | none =>
      rw [hu] at hstep
      cases hstep
    | some t =>
      rw [hu] at hstep
      have he := Option.some.inj hstep
      subst he
      rcases (updH_eq_some s i .wroteReload _ t).mp hu with ⟨h0, hh0, hph0, rfl⟩
      refine ⟨?_, ?_, ?_⟩
      · intro hf hf'
        exact ⟨i, h0, rfl, hh0, hph0⟩
      · intro j hj heq
        cases heq
      · intro j heq
        cases heq
  | writePingOk i =>
    rcases (updH_eq_some s i .timedOut _ s').mp hstep with ⟨h0, hh0, hph0, rfl⟩
    refine ⟨?_, ?_, ?_⟩
    · intro hf hf'
      have hc : s.flag = false := hf'
      rw [hf] at hc
      cases hc
    · intro j hj heq
      cases heq
    · intro j heq
      cases heq
  | writePingFail i =>
    rcases (updH_eq_some s i .timedOut _ s').mp hstep with ⟨h0, hh0, hph0, rfl⟩
    refine ⟨?_, ?_, ?_⟩
    · intro hf hf'
      have hc : s.flag = false := hf'
      rw [hf] at hc
      cases hc
    · intro j hj heq
      cases heq
    · intro j heq
      cases heq
  | finallyRemove i =>
    simp only [sse_step] at hstep
    cases hu : updH s i .exiting (fun h => { h with phase := .closed }) with
    | none =>
      rw [hu] at hstep
      cases hstep
    | some t =>
      rw [hu] at hstep
      have he := Option.some.inj hstep
      subst he
      rcases (updH_eq_some s i .exiting _ t).mp hu with ⟨h0, hh0, hph0, rfl⟩
      refine ⟨?_, ?_, ?_⟩
      · intro hf hf'
        have hc : s.flag = false := hf'
        rw [hf] at hc
        cases hc
      · intro j hj heq
        cases heq
      · intro j heq
        cases heq
  | pulse =>
    have he := Option.some.inj hstep
    subst he
    refine ⟨?_, ?_, ?_⟩
    · intro hf hf'
      have hc : true = false := hf'
      cases hc
    · intro j hj heq
      cases heq
    · intro j heq
      cases heq

/-- C10 witness: a concrete clearing step — the flag goes from set to
cleared exactly by the `clear()` of the handler that has just written the
reload event. -/
theorem sse_signal_persistence_witness :
    ∃ i h, SseAction.clearSignal 0 = SseAction.clearSignal i ∧
      (⟨[⟨.wroteReload, [.reload]⟩], [0], true⟩ : SseState).handlers[i]? = some h ∧
      h.phase = Phase.wroteReload :=
  (sse_signal_persistence ⟨[⟨.wroteReload, [.reload]⟩], [0], true⟩ (.clearSignal 0)
      ⟨[⟨.looping, [.reload]⟩], [0], false⟩ rfl).1 rfl rfl

/-- C4 failing interleaving: two connected clients are both blocked
waiting when the watcher pulses the reload signal.  Client 0 re-checks the
flag first, writes its reload event and clears the shared flag; client 1,
which was equally blocked at the moment of the pulse, then re-checks the
already-cleared flag, falls back to waiting, times out, and receives only
a keep-alive ping — it silently misses the reload, contradicting the
claim that every client blocked at the pulse receives the reload before
any subsequent keep-alive. -/
theorem sse_lost_wakeup :
    sse_run sse_init [.connect, .connect, .startWait 0, .startWait 1]
      = some ⟨[⟨.waiting, []⟩, ⟨.waiting, []⟩], [0, 1], false⟩ ∧
    sse_step ⟨[⟨.waiting, []⟩, ⟨.waiting, []⟩], [0, 1], false⟩ .pulse
      = some ⟨[⟨.waiting, []⟩, ⟨.waiting, []⟩], [0, 1], true⟩ ∧
    sse_run ⟨[⟨.waiting, []⟩, ⟨.waiting, []⟩], [0, 1], true⟩
      [.wakeRecheck 0, .writeReloadOk 0, .clearSignal 0, .waitTimeout 1, .writePingOk 1]
      = some ⟨[⟨.looping, [.reload]⟩, ⟨.looping, [.ping]⟩], [0, 1], false⟩ := by
  refine ⟨?_, ?_, ?_⟩
  · rfl
  · rfl
  · rfl

/-- Appending a handler does not change liveness at existing indices. -/
theorem activeAt_append_lt (hs : List Handler) (x : Handler) (i : Nat)
    (hi : i < hs.length) : activeAt (hs ++ [x]) i = activeAt hs i := by
  unfold activeAt
  rw [List.getElem?_append_left hi]

/-- Liveness of a freshly appended handler is its own phase check. -/
theorem activeAt_append_len (hs : List Handler) (x : Handler) :
    activeAt (hs ++ [x]) hs.length = (x.phase != .closed) := by
  unfold activeAt
  rw [List.getElem?_concat_length]
  rfl

/-- Replacing a handler by one that is equally not closed leaves liveness
unchanged at every index. -/
theorem activeAt_set_congr (hs : List Handler) (i : Nat) (h h' : Handler)
    (hh : hs[i]? = some h) (hnew : h'.phase ≠ .closed) (hold : h.phase ≠ .closed) :
    ∀ j, activeAt (hs.set i h') j = activeAt hs j := by
  intro j
  by_cases hij : i = j
  · subst hij
    unfold activeAt
    rw [List.getElem?_set_self ((List.getElem?_eq_some.mp hh).1), hh]
    show (h'.phase != Phase.closed) = (h.phase != Phase.closed)
    have h1 : (h'.phase != Phase.closed) = true := by simp [hnew]
    have h2 : (h.phase != Phase.closed) = true := by simp [hold]
    rw [h1, h2]
  · unfold activeAt
    rw [List.getElem?_set_ne hij]

/-- Flipping the predicate from true to false at a single point of a
duplicate-free list turns its filter into the erasure of that point. -/
theorem filter_update_erase (p q : Nat → Bool) (i : Nat) :
    ∀ l : List Nat, l.Nodup → (∀ j, j ≠ i → q j = p j) → q i = false → p i = true →
      l.filter q = (l.filter p).erase i := by
  intro l
  induction l with
  | nil =>
    intro _ _ _ _
    rfl
  | cons a t ih =>
    intro hnd hqp hqi hpi
    rcases List.nodup_cons.mp hnd with ⟨hat, hndt⟩
    by_cases hai : a = i
    · subst hai
      rw [List.filter_cons, List.filter_cons, hqi, hpi]
      rw [if_neg (by simp), if_pos rfl, List.erase_cons_head]
      exact List.filter_congr (fun x hx => hqp x (fun hxa => hat (hxa ▸ hx)))
    · have hqa : q a = p a := hqp a hai
      rw [List.filter_cons, List.filter_cons, hqa]
      cases hpa : p a with
      | true =>
        rw [if_pos rfl, if_pos rfl, List.erase_cons_tail]
        · rw [ih hndt hqp hqi hpi]
        · simp [hai]
      | false =>
        rw [if_neg (by simp), if_neg (by simp)]
        exact ih hndt hqp hqi hpi

/-- A fresh connection extends the live indices by the new one. -/
theorem active_ids_connect (s : SseState) :
    active_ids { s with handlers := s.handlers ++ [⟨Phase.looping, []⟩],
                        registry := s.registry ++ [s.handlers.length] }
      = active_ids s ++ [s.handlers.length] := by
  unfold active_ids
  dsimp only
  have hlen : (s.handlers ++ [(⟨Phase.looping, []⟩ : Handler)]).length
      = s.handlers.length + 1 := by
    simp
  rw [hlen, List.range_succ, List.filter_append]
  have hx : activeAt (s.handlers ++ [⟨Phase.looping, []⟩]) s.handlers.length = true := by
    rw [activeAt_append_len]
    rfl
  congr 1
  · exact List.filter_congr (fun i hi => activeAt_append_lt _ _ _ (List.mem_range.mp hi))
  · simp [List.filter_cons, hx]

/-- Updating one handler to another live phase keeps the live indices. -/
theorem active_ids_set_state (s : SseState) (i : Nat) (h h' : Handler)
    (hh : s.handlers[i]? = some h) (hnew : h'.phase ≠ .closed)
    (hold : h.phase ≠ .closed) :
    ∀ (reg : List Nat) (fl : Bool),
      active_ids ⟨s.handlers.set i h', reg, fl⟩ = active_ids s := by
  intro reg fl
  unfold active_ids
  dsimp only
  rw [List.length_set]
  exact List.filter_congr (fun j _ => activeAt_set_congr s.handlers i h h' hh hnew hold j)

/-- Closing one live handler erases exactly its index from the live
indices. -/
theorem active_ids_close_state (s : SseState) (i : Nat) (h : Handler)
    (hh : s.handlers[i]? = some h) (hold : h.phase ≠ .closed) (h' : Handler)
    (hclosed : h'.phase = .closed) :
    ∀ (reg : List Nat) (fl : Bool),
      active_ids ⟨s.handlers.set i h', reg, fl⟩ = (active_ids s).erase i := by
  intro reg fl
  unfold active_ids
  dsimp only
  rw [List.length_set]
  refine filter_update_erase (activeAt s.handlers) (activeAt (s.handlers.set i h')) i
    (List.range s.handlers.length) (List.nodup_range s.handlers.length) ?_ ?_ ?_
  · intro j hji
    unfold activeAt
    rw [List.getElem?_set_ne (Ne.symm hji)]
  · unfold activeAt
    rw [List.getElem?_set_self ((List.getElem?_eq_some.mp hh).1)]
    show (h'.phase != Phase.closed) = false
    rw [hclosed]
    rfl
  · unfold activeAt
    rw [hh]
    show (h.phase != Phase.closed) = true
    simp [hold]

/-- C9: in every reachable state the client registry holds exactly the
stream indices of the handlers still inside `handle_sse`: a stream is
appended exactly once when its handler enters the loop, removed exactly
once when the handler terminates for any reason (reload-write failure,
keep-alive-write failure), and every append and removal is one atomic
(lock-protected) step of the transition system. -/
theorem sse_registry_invariant (s : SseState) (hreach : SseReachable s) :
    s.registry = active_ids s := by
  induction hreach with
  | init => rfl
  | @step s0 s1 a hr hstep ih =>
    cases a with
    | connect =>
      have he := Option.some.inj hstep
      subst he
      show s0.registry ++ [s0.handlers.length] = _
      rw [active_ids_connect, ← ih]
    | startWait i =>
      rcases (updH_eq_some s0 i .looping _ s1).mp hstep with ⟨h0, hh0, hph0, rfl⟩
      show s0.registry = active_ids ⟨s0.handlers.set i _, s0.registry, s0.flag⟩
      rw [active_ids_set_state s0 i h0 _ hh0
        (by cases hsf : s0.flag <;> simp [hsf]) (by simp [hph0])]
      exact ih
    | wakeRecheck i =>
      simp only [sse_step] at hstep
      by_cases hf : s0.flag = true
      · rw [if_pos hf] at hstep
        rcases (updH_eq_some s0 i .waiting _ s1).mp hstep with ⟨h0, hh0, hph0, rfl⟩
        show s0.registry = active_ids ⟨s0.handlers.set i _, s0.registry, s0.flag⟩
        rw [active_ids_set_state s0 i h0 _ hh0 (by simp) (by simp [hph0])]
        exact ih
      · rw [if_neg hf] at hstep
        cases hstep
    | waitTimeout i =>
      simp only [sse_step] at hstep
      by_cases hf : s0.flag = true
      · rw [if_pos hf] at hstep
        cases hstep
      · rw [if_neg hf] at hstep
        rcases (updH_eq_some s0 i .waiting _ s1).mp hstep with ⟨h0, hh0, hph0, rfl⟩
        show s0.registry = active_ids ⟨s0.handlers.set i _, s0.registry, s0.flag⟩
        rw [active_ids_set_state s0 i h0 _ hh0 (by simp) (by simp [hph0])]
        exact ih
    | writeReloadOk i =>
      rcases (updH_eq_some s0 i .gotSignal _ s1).mp hstep with ⟨h0, hh0, hph0, rfl⟩
      show s0.registry = active_ids ⟨s0.handlers.set i _, s0.registry, s0.flag⟩
      rw [active_ids_set_state s0 i h0 _ hh0 (by simp) (by simp [hph0])]
      exact ih
    | writeReloadFail i =>
      rcases (updH_eq_some s0 i .gotSignal _ s1).mp hstep with ⟨h0, hh0, hph0, rfl⟩
      show s0.registry = active_ids ⟨s0.handlers.set i _, s0.registry, s0.flag⟩
      rw [active_ids_set_state s0 i h0 _ hh0 (by simp) (by simp [hph0])]
      exact ih
    | clearSignal i =>
      simp only [sse_step] at hstep
      cases hu : updH s0 i .wroteReload (fun h => { h with phase := .looping }) with
      | none =>
        rw [hu] at hstep
        cases hstep
      | some t =>
        rw [hu] at hstep
        have he := Option.some.inj hstep
        subst he
        rcases (updH_eq_some s0 i .wroteReload _ t).mp hu with ⟨h0, hh0, hph0, rfl⟩
        show s0.registry = active_ids ⟨s0.handlers.set i _, s0.registry, false⟩
        rw [active_ids_set_state s0 i h0 _ hh0 (by simp) (by simp [hph0])]
        exact ih
    | writePingOk i =>
      rcases (updH_eq_some s0 i .timedOut _ s1).mp hstep with ⟨h0, hh0, hph0, rfl⟩
      show s0.registry = active_ids ⟨s0.handlers.set i _, s0.registry, s0.flag⟩
      rw [active_ids_set_state s0 i h0 _ hh0 (by simp) (by simp [hph0])]
      exact ih
    | writePingFail i =>
      rcases (updH_eq_some s0 i .timedOut _ s1).mp hstep with ⟨h0, hh0, hph0, rfl⟩
      show s0.registry = active_ids ⟨s0.handlers.set i _, s0.registry, s0.flag⟩
      rw [active_ids_set_state s0 i h0 _ hh0 (by simp) (by simp [hph0])]
      exact ih
    | finallyRemove i =>
      simp only [sse_step] at hstep
      cases hu : updH s0 i .exiting (fun h => { h with phase := .closed }) with
      | none =>
        rw [hu] at hstep
        cases hstep
      | some t =>
        rw [hu] at hstep
        have he := Option.some.inj hstep
        subst he
        rcases (updH_eq_some s0 i .exiting _ t).mp hu with ⟨h0, hh0, hph0, rfl⟩
        show s0.registry.erase i = active_ids ⟨s0.handlers.set i _, _, s0.flag⟩
        rw [active_ids_close_state s0 i h0 hh0 (by simp [hph0]) _ rfl, ← ih]
    | pulse =>
      have he := Option.some.inj hstep
      subst he
      show s0.registry = active_ids ⟨s0.handlers, s0.registry, true⟩
      unfold active_ids at ih ⊢
      dsimp only
      exact ih

/-- C9 witness: after one client connects, the registry of the resulting
reachable state is exactly its live stream index. -/
theorem sse_registry_invariant_witness :
    (⟨[⟨.looping, []⟩], [0], false⟩ : SseState).registry
      = active_ids ⟨[⟨.looping, []⟩], [0], false⟩ :=
  sse_registry_invariant ⟨[⟨.looping, []⟩], [0], false⟩
    (SseReachable.step (a := .connect) SseReachable.init rfl)
